import Mathlib

/-!
Verification development for the `slag` Slack-archive web application
(`app.py`).  The web layer (`WebServer`) is embedded shallowly: each Flask
route handler becomes a pure Lean function from the request parameters and
an abstract archive to a rendered `Response` together with the list of
side-effecting `Event`s it performs (store writes and archive calls), in
the order the Python code performs them.  The archive engine
(`slack_archive.py`) and token store (`store.py`) are not part of the
sources; where a claim is decided by them the corresponding definition is
modelled from the specification and marked as such in its doc comment.
-/

namespace Slag

/-- A message payload returned by archive queries; its internal structure is
irrelevant to the web layer, which passes it through to templates. -/
abbrev Msg := String

/-- A stream record as returned by `filter_streams`: the web layer only
reads its `_id` field (`app.py` line 223). -/
structure SStream where
  _id : String
deriving DecidableEq, Repr

/-- The decrypted token-store record for a logged-in user: `user['login']`
and `user['full_access']` are the fields the handlers read. -/
structure UserInfo where
  login : String
  full_access : Bool
deriving DecidableEq, Repr

/-- Side effects performed by the handlers, in program order: writes to the
mongo `z_*` logging collections, token-store writes, cookie setting, and
calls into the `SlackArchive` facade. -/
inductive Event where
  | zSearchInsert (user q : String)
  | zBrowseInsert (user s : String)
  | zAccessInsert (user : String)
  | zLoginsInsert (user : String)
  | zErrorsInsert (ctx msg : String)
  | zLogoutsInsert (user : String)
  | tokensUpsert (token : String) (full_access : Bool)
  | setCookie (name : String)
  | saveArchive (filename : String)
  | callFindMessages (q : String) (streamIds : List String) (p : Nat)
  | callFindMessagesInStream (q s : String) (p : Nat)
  | callFindMessagesAround (c s : String) (p : Nat)
  | callStreamMessages (s : String) (p : Nat)
  | callFilterStreams (filterName : String)
  | callHasStreamAccess (s : String)
  | callImportArchive
  | callStreamsFetch (token : String)
deriving DecidableEq, Repr

/-- Responses rendered by the handlers.  Template rendering is abstracted to
a constructor carrying exactly the data the handler passes to the template;
`httpsRedirect` stands for the 301 issued by `_redirect_to_https`. -/
inductive Response where
  | searchEmpty
  | searchResults (results : List Msg) (total : Nat) (q s c : String) (p : Nat)
  | accessDenied
  | browsePage (channels groups ims : List SStream) (f : String) (advanced : Bool)
  | streamPage (results : List Msg) (total : Nat) (s : String) (p : Nat)
  | redirectPage (url msg : String)
  | redirect302 (url : String)
  | httpsRedirect
  | basicPage (title body : String)
  | uploadForm
  | importComplete
deriving DecidableEq, Repr

/-- The `SlackArchive` facade as seen from the web layer: a record of the
query and access-control functions the handlers call.  Their behaviour is
abstract; the handlers are verified for every instantiation. -/
structure Archive where
  find_messages : String → List String → Nat → List Msg × Nat
  find_messages_in_stream : String → String → Nat → List Msg × Nat
  find_messages_around : String → String → Nat → List Msg × Nat
  stream_messages : String → Nat → List Msg × Nat
  filter_streams : UserInfo → String → List SStream × List SStream × List SStream × String
  has_stream_access : UserInfo → String → Bool

/-- The flat stream-id list the search handler builds from the three
partitions of `filter_streams(user, 'all')` (`app.py` lines 219-223):
drop the trailing filter name, chain public/private/direct, take `_id`s. -/
def streamIdsOf (t : List SStream × List SStream × List SStream × String) :
    List String :=
  (t.1 ++ t.2.1 ++ t.2.2.1).map SStream._id

/-- `WebServer.search` (`app.py` lines 196-229).  The handler logs the
query to `z_search`, short-circuits on an empty query, denies a named
stream the user may not access, and otherwise dispatches to one of the
three archive query functions. -/
def search (arch : Archive) (user : UserInfo) (q s c : String) (p : Nat) :
    Response × List Event :=
  let ev0 : List Event := [Event.zSearchInsert user.login q]
  if q = "" then
    (Response.searchEmpty, ev0)
  else if s ≠ "" ∧ arch.has_stream_access user s = false then
    (Response.accessDenied,
     ev0 ++ [Event.callHasStreamAccess s, Event.zAccessInsert user.login])
  else if c ≠ "" then
    let r := arch.find_messages_around c s p
    (Response.searchResults r.1 r.2 q s c p,
     ev0 ++ (if s ≠ "" then [Event.callHasStreamAccess s] else []) ++
       [Event.callFindMessagesAround c s p])
  else if s ≠ "" then
    let r := arch.find_messages_in_stream q s p
    (Response.searchResults r.1 r.2 q s c p,
     ev0 ++ [Event.callHasStreamAccess s,
             Event.callFindMessagesInStream q s p])
  else
    let ids := streamIdsOf (arch.filter_streams user "all")
    let r := arch.find_messages q ids p
    (Response.searchResults r.1 r.2 q s c p,
     ev0 ++ [Event.callFilterStreams "all", Event.callFindMessages q ids p])

/-- `WebServer.browse` (`app.py` lines 242-262).  `filterArg` is
`request.args.get('filter')`; absence defaults to `'my'` per the source
(`args.get('filter', 'my')`). -/
def browse (arch : Archive) (user : UserInfo) (s : String) (p : Nat)
    (filterArg : Option String) : Response × List Event :=
  let ev0 : List Event := [Event.zBrowseInsert user.login s]
  if s = "" then
    let fname := filterArg.getD "my"
    let fs := arch.filter_streams user fname
    (Response.browsePage fs.1 fs.2.1 fs.2.2.1 fs.2.2.2 user.full_access,
     ev0 ++ [Event.callFilterStreams fname])
  else if arch.has_stream_access user s = false then
    (Response.accessDenied,
     ev0 ++ [Event.callHasStreamAccess s, Event.zAccessInsert user.login])
  else
    let r := arch.stream_messages s p
    (Response.streamPage r.1 r.2 s p,
     ev0 ++ [Event.callHasStreamAccess s, Event.callStreamMessages s p])

/-- An archive instance used for concrete evaluations: every query returns
nothing and no stream is accessible. -/
def archNone : Archive where
  find_messages := fun _ _ _ => ([], 0)
  find_messages_in_stream := fun _ _ _ => ([], 0)
  find_messages_around := fun _ _ _ => ([], 0)
  stream_messages := fun _ _ => ([], 0)
  filter_streams := fun _ f => ([], [], [], f)
  has_stream_access := fun _ _ => false

/-- A concrete user for evaluations. -/
def userAlice : UserInfo := ⟨"alice", false⟩

/-- `WebServer.upload` (`app.py` lines 264-286), the `/import` route.
`archiveFile` is the filename of the uploaded `archive` form file, if any.
Production mode yields the access-denied redirect before anything else. -/
def upload (isProd : Bool) (archiveFile : Option String) :
    Response × List Event :=
  if isProd then (Response.redirectPage "/browse" "Access denied", [])
  else
    match archiveFile with
    | some name =>
        if name.endsWith ".zip" then
          (Response.redirectPage "/import_db" (name ++ " saved"),
           [Event.saveArchive name])
        else (Response.uploadForm, [])
    | none => (Response.uploadForm, [])

/-- `WebServer.import_db` (`app.py` lines 288-297), the `/import_db` route.
Outside production it calls `archive.import_archive()` unconditionally; the
rendered counts come from that call and are abstracted into
`importComplete`.  No field of the requesting user is consulted. -/
def import_db (isProd : Bool) : Response × List Event :=
  if isProd then (Response.redirectPage "/browse" "Access denied", [])
  else (Response.importComplete, [Event.callImportArchive])

/-- The request attributes the two `before_request` hooks read:
`tokens.is_known_user(cookies['auth'])`, `request.path`,
`request.is_secure` and the `X-Forwarded-Proto: http` header. -/
structure RequestCtx where
  knownUser : Bool
  path : String
  isSecure : Bool
  xfpHttp : Bool
deriving DecidableEq, Repr

/-- `WebServer._redirect_to_https` (`app.py` lines 299-305): in production,
when `request.is_secure or X-Forwarded-Proto == 'http'` holds, a 301
redirect is returned (the rewritten URL is abstracted away). -/
def redirect_to_https (isProd : Bool) (r : RequestCtx) : Option Response :=
  if (r.isSecure ∨ r.xfpHttp) ∧ isProd then some Response.httpsRedirect
  else none

/-- `WebServer._check_auth` (`app.py` lines 307-314): known users pass;
otherwise only the `/login` path or a path naming an existing file of the
static folder passes, and everything else gets the login-redirect page.
`staticFiles` lists the file names present in the static folder. -/
def check_auth (staticFiles : List String) (r : RequestCtx) :
    Option Response :=
  if r.knownUser then none
  else if r.path = "/login" ∨ staticFiles.contains (r.path.drop 1) then none
  else some (Response.redirectPage "/login" "Auth required")

/-- Flask request dispatch as configured in `WebServer.__init__` (`app.py`
lines 78-79): `_redirect_to_https` runs first, then `_check_auth`; the
first hook returning a response short-circuits, otherwise the route
handler runs. -/
def dispatch (isProd : Bool) (staticFiles : List String) (r : RequestCtx)
    (handler : Unit → Response × List Event) : Response × List Event :=
  match redirect_to_https isProd r with
  | some resp => (resp, [])
  | none =>
      match check_auth staticFiles r with
      | some resp => (resp, [])
      | none => handler ()

/-- Outcome of the OAuth code exchange in `WebServer._login_oauth`: either
a `slacker.Error` or a body with `access_token` and `scope`. -/
inductive OAuthResult where
  | err (msg : String)
  | ok (token scope : String)
deriving DecidableEq, Repr

/-- Outcome of `Slacker(token).auth.test()` in
`WebServer._login_with_token`: a `slacker.Error`, or a body carrying
`team_id`, `team` and `user`. -/
inductive AuthTestResult where
  | err (msg : String)
  | ok (team_id team user : String)
deriving DecidableEq, Repr

/-- `WebServer._login_success` (`app.py` lines 349-359): upsert the token
with `full_access = not identity_only`, log the login, set the auth
cookie, then fire `streams_fetch(token)`, returning a 302 to `/browse`. -/
def login_success (token : String) (userName : String)
    (identity_only : Bool) : Response × List Event :=
  (Response.redirect302 "/browse",
   [Event.tokensUpsert token (!identity_only),
    Event.zLoginsInsert userName,
    Event.setCookie "auth",
    Event.callStreamsFetch token])

/-- `WebServer._login_with_token` (`app.py` lines 334-347): an API error is
logged to `z_errors` and rendered; a team-id mismatch renders the wrong-
team page; otherwise the login succeeds.  `teamEnvId` is the
`SLACK_TEAM_ID` environment value. -/
def login_with_token (teamEnvId : String) (api : AuthTestResult)
    (token : String) (identity_only : Bool) : Response × List Event :=
  match api with
  | AuthTestResult.err msg =>
      (Response.basicPage "Auth error" ("Auth error: " ++ msg),
       [Event.zErrorsInsert "auth.test" msg])
  | AuthTestResult.ok tid team usr =>
      if tid = teamEnvId then login_success token usr identity_only
      else (Response.basicPage "Wrong team" ("Wrong team: " ++ team), [])

/-- `WebServer._login_oauth` (`app.py` lines 316-332): an OAuth error is
logged to `z_errors` and rendered; otherwise `identity_only` is the test
`oauth['scope'].count(',') == 1` and the flow continues with the token. -/
def login_oauth (teamEnvId : String) (oauth : OAuthResult)
    (api : AuthTestResult) : Response × List Event :=
  match oauth with
  | OAuthResult.err msg =>
      (Response.basicPage "OAuth error" ("OAuth error: " ++ msg),
       [Event.zErrorsInsert "oauth" msg])
  | OAuthResult.ok token scope =>
      login_with_token teamEnvId api token (scope.toList.count ',' == 1)

/-- Stream kinds of the data model: public channel, private group, direct
message. -/
inductive StreamKind where
  | publicChannel
  | privateGroup
  | directMessage
deriving DecidableEq, Repr

/-- A stream record of the canonical store as AccessControl sees it:
id, kind and membership list. -/
structure ArchStream where
  sid : String
  kind : StreamKind
  members : List String
deriving DecidableEq, Repr

/-- A user identity together with its credential-scope flag, as
AccessControl reads it. -/
structure ArchUser where
  uid : String
  fullAccess : Bool
deriving DecidableEq, Repr

/-- Modelled from the spec: the AccessControl visibility rule of
`slack_archive.py` (not among the sources).  A public channel is visible
to any authenticated user; a private group or direct message is visible
only to a member whose credential grants `full_access`. -/
def visibleTo (u : ArchUser) (s : ArchStream) : Bool :=
  match s.kind with
  | StreamKind.publicChannel => true
  | StreamKind.privateGroup => s.members.contains u.uid && u.fullAccess
  | StreamKind.directMessage => s.members.contains u.uid && u.fullAccess

/-- Modelled from the spec: `filter_streams(user, filterName)` of
`slack_archive.py` (not among the sources).  An unrecognized filter name
normalizes to the default `"my"`; `"all"` selects every visible stream
while `"my"` keeps only streams the user is a member of; the result is
partitioned by kind and carries the resolved filter name. -/
def filter_streams_m (u : ArchUser) (streams : List ArchStream)
    (name : String) :
    List ArchStream × List ArchStream × List ArchStream × String :=
  let resolved := if name = "all" then "all" else "my"
  let base := streams.filter (fun s => visibleTo u s)
  let sel := if resolved = "all" then base
             else base.filter (fun s => s.members.contains u.uid)
  (sel.filter (fun s => s.kind = StreamKind.publicChannel),
   sel.filter (fun s => s.kind = StreamKind.privateGroup),
   sel.filter (fun s => s.kind = StreamKind.directMessage),
   resolved)

/-- Modelled from the spec: `has_stream_access(user, streamId)` of
`slack_archive.py` (not among the sources): look the stream up by id in
the store and apply the visibility rule; an unknown id is denied. -/
def has_stream_access_m (u : ArchUser) (streams : List ArchStream)
    (sid : String) : Bool :=
  match streams.find? (fun s => s.sid = sid) with
  | some s => visibleTo u s
  | none => false

/-- The ids appearing in the three partitions returned by
`filter_streams_m`. -/
def partitionIds
    (t : List ArchStream × List ArchStream × List ArchStream × String) :
    List String :=
  (t.1 ++ t.2.1 ++ t.2.2.1).map ArchStream.sid

/-- A canonical-store message record: the composite key is
`(stream, ts)`. -/
structure ArchMessage where
  stream : String
  ts : Nat
  author : String
  body : String
  subtype : String
deriving DecidableEq, Repr

/-- Whether the collection already holds a message with `m`'s composite
key `(stream id, send timestamp)`. -/
def hasKey (coll : List ArchMessage) (m : ArchMessage) : Bool :=
  coll.any (fun x => x.stream = m.stream && x.ts = m.ts)

/-- Modelled from the spec: the idempotent upsert of the canonical
Messages collection (`slack_archive.py`, not among the sources): a write
keyed by `(stream id, timestamp)` that inserts if the key is absent and
is a no-op if the key already exists.  Returns the new collection and
whether an insertion happened. -/
def upsertMessage (coll : List ArchMessage) (m : ArchMessage) :
    List ArchMessage × Bool :=
  if hasKey coll m then (coll, false) else (coll ++ [m], true)

/-- Counts reported by one import run. -/
structure ImportBatch where
  inserted : Nat
  skipped : Nat
deriving DecidableEq, Repr

/-- Modelled from the spec: the import loop of
`slack_archive.import_archive` (not among the sources).  Each archive
record is upserted against the canonical Messages collection; an
insertion is counted as `inserted`, an existing key as `skipped`. -/
def importLoop : List ArchMessage → List ArchMessage → ImportBatch →
    List ArchMessage × ImportBatch
  | [], coll, batch => (coll, batch)
  | m :: rest, coll, batch =>
      let r := upsertMessage coll m
      if r.2 then importLoop rest r.1 ⟨batch.inserted + 1, batch.skipped⟩
      else importLoop rest r.1 ⟨batch.inserted, batch.skipped + 1⟩

/-- Modelled from the spec: one full `import_archive` run over the parsed
records of an archive, starting from the current Messages collection with
fresh counters. -/
def import_archive_m (records coll : List ArchMessage) :
    List ArchMessage × ImportBatch :=
  importLoop records coll ⟨0, 0⟩

/-- The result window and total count carried by a search response;
non-result pages carry the empty window. -/
def searchOutcome : Response → List Msg × Nat
  | Response.searchResults r t _ _ _ _ => (r, t)
  | _ => ([], 0)

/-- Whether an event is a read of the archive's message collections. -/
def isArchiveRead : Event → Bool
  | Event.callFindMessages _ _ _ => true
  | Event.callFindMessagesInStream _ _ _ => true
  | Event.callFindMessagesAround _ _ _ => true
  | Event.callStreamMessages _ _ => true
  | _ => false

/-- The authorization discipline claimed for archive reads issued by the
web routes: an in-stream, context, or stream-browse read is over a stream
`has_stream_access` granted, and an all-streams search is over exactly the
ids of the partitions of `filter_streams(user, 'all')`. -/
def eventAuthorized (arch : Archive) (u : UserInfo) : Event → Bool
  | Event.callFindMessages _ ids _ =>
      ids = streamIdsOf (arch.filter_streams u "all")
  | Event.callFindMessagesInStream _ s _ => arch.has_stream_access u s
  | Event.callFindMessagesAround _ s _ => arch.has_stream_access u s
  | Event.callStreamMessages s _ => arch.has_stream_access u s
  | _ => true

/-- The authorization discipline the code actually implements: as
`eventAuthorized`, except that a context-window read whose stream
parameter is the empty string is issued without any access check. -/
def eventAuthorizedExceptEmptyAround (arch : Archive) (u : UserInfo) :
    Event → Bool
  | Event.callFindMessages _ ids _ =>
      ids = streamIdsOf (arch.filter_streams u "all")
  | Event.callFindMessagesInStream _ s _ => arch.has_stream_access u s
  | Event.callFindMessagesAround _ s _ =>
      s = "" || arch.has_stream_access u s
  | Event.callStreamMessages s _ => arch.has_stream_access u s
  | _ => true

/-- A two-stream store used to evaluate the AccessControl model on
concrete input: one public channel and one private group with member
`alice`. -/
def demoStreams : List ArchStream :=
  [⟨"c1", StreamKind.publicChannel, []⟩,
   ⟨"g1", StreamKind.privateGroup, ["alice"]⟩]

/-- C1 (counterexample): a `/search` request with empty query `q` does
write to the store — the handler inserts the `z_search` log entry before
the empty-query check, as evaluated here on a concrete request. -/
theorem search_empty_query_writes_search_log :
    Event.zSearchInsert "alice" "" ∈
      (search archNone userAlice "" "" "" 0).2 := by
  decide

/-- C1 (amended): for every `/search` request with empty query `q`, the
handler returns the empty result page and invokes no archive query
function; the only store write is the `z_search` log entry recording the
empty query. -/
theorem search_empty_query_no_archive_read (arch : Archive)
    (user : UserInfo) (s c : String) (p : Nat) :
    search arch user "" s c p =
      (Response.searchEmpty, [Event.zSearchInsert user.login ""]) := by
  rfl

/-- C6: on a `/browse` stream-listing request with no filter argument,
`filter_streams` is invoked with the default name `my`, and the filter
name rendered to the caller is the resolved name of the tuple returned by
`filter_streams`, not the raw request argument. -/
theorem browse_default_filter_resolved (arch : Archive) (user : UserInfo)
    (p : Nat) :
    (browse arch user "" p none).1 =
      Response.browsePage (arch.filter_streams user "my").1
        (arch.filter_streams user "my").2.1
        (arch.filter_streams user "my").2.2.1
        (arch.filter_streams user "my").2.2.2 user.full_access ∧
    Event.callFilterStreams "my" ∈ (browse arch user "" p none).2 := by
  constructor
  · rfl
  · simp [browse]

/-- C10: the import endpoints perform no admin check: in production both
`/import` and `/import_db` answer the access-denied redirect with no side
effect (in particular `import_archive` is never invoked), while outside
production `/import_db` invokes `import_archive` unconditionally. -/
theorem import_endpoints_no_admin_check (archiveFile : Option String) :
    import_db true = (Response.redirectPage "/browse" "Access denied", []) ∧
    upload true archiveFile =
      (Response.redirectPage "/browse" "Access denied", []) ∧
    Event.callImportArchive ∈ (import_db false).2 := by
  refine ⟨rfl, rfl, ?_⟩
  simp [import_db]

/-- C5: context-window retrieval ignores the text query: two `/search`
requests with the same non-empty context parameter that differ only in
their (non-empty) query text produce the same result window and total
count, and issue identical archive reads — the query string is not passed
to `find_messages_around`. -/
theorem context_window_ignores_query (arch : Archive) (user : UserInfo)
    (q1 q2 s c : String) (p : Nat)
    (hc : c ≠ "") (h1 : q1 ≠ "") (h2 : q2 ≠ "") :
    searchOutcome (search arch user q1 s c p).1 =
      searchOutcome (search arch user q2 s c p).1 ∧
    ((search arch user q1 s c p).2).filter (fun e => isArchiveRead e) =
      ((search arch user q2 s c p).2).filter (fun e => isArchiveRead e) := by
  by_cases hd : s ≠ "" ∧ arch.has_stream_access user s = false
  · simp [search, h1, h2, hd, searchOutcome, isArchiveRead]
  · simp [search, h1, h2, hd, hc, searchOutcome, isArchiveRead]

/-- C5 witness: the theorem applied to a concrete pair of requests that
differ only in the query text. -/
theorem context_window_ignores_query_witness :
    searchOutcome (search archNone userAlice "a" "" "x" 0).1 =
      searchOutcome (search archNone userAlice "b" "" "x" 0).1 ∧
    ((search archNone userAlice "a" "" "x" 0).2).filter
        (fun e => isArchiveRead e) =
      ((search archNone userAlice "b" "" "x" 0).2).filter
        (fun e => isArchiveRead e) :=
  context_window_ignores_query archNone userAlice "a" "b" "" "x" 0
    (by decide) (by decide) (by decide)

/-- C2 (counterexample): an authenticated `/search` request with a
non-empty context parameter and an empty stream parameter reaches
`find_messages_around` without any access check: over an archive where
`has_stream_access` always answers false, the trace still contains an
archive read that fails the claimed authorization discipline. -/
theorem context_search_unauthorized_read :
    ¬ (∀ e ∈ (search archNone userAlice "x" "" "ctx" 0).2,
        eventAuthorized archNone userAlice e = true) := by
  decide

/-- C2 (amended): every archive read issued by `/search` and `/browse` is
gated by AccessControl — an in-stream or stream-browse read only over a
stream `has_stream_access` granted, an all-streams search exactly over the
ids of the partitions of `filter_streams(user, 'all')` — except that a
context-window read whose stream parameter is the empty string is issued
without any access check; and whenever a non-empty stream parameter fails
`has_stream_access` (with a non-empty query, for `/search`), the
access-denied page is returned and no archive read occurs. -/
theorem search_browse_reads_gated (arch : Archive) (u : UserInfo)
    (q s c : String) (p : Nat) (filterArg : Option String) :
    (∀ e ∈ (search arch u q s c p).2,
        eventAuthorizedExceptEmptyAround arch u e = true) ∧
    (∀ e ∈ (browse arch u s p filterArg).2,
        eventAuthorizedExceptEmptyAround arch u e = true) ∧
    (q ≠ "" → s ≠ "" → arch.has_stream_access u s = false →
      (search arch u q s c p).1 = Response.accessDenied ∧
      ∀ e ∈ (search arch u q s c p).2, isArchiveRead e = false) ∧
    (s ≠ "" → arch.has_stream_access u s = false →
      (browse arch u s p filterArg).1 = Response.accessDenied ∧
      ∀ e ∈ (browse arch u s p filterArg).2, isArchiveRead e = false) := by
  refine ⟨?_, ?_, ?_, ?_⟩
  · by_cases hq : q = ""
    · simp [search, hq, eventAuthorizedExceptEmptyAround]
    · by_cases hd : s ≠ "" ∧ arch.has_stream_access u s = false
      · simp [search, hq, hd, eventAuthorizedExceptEmptyAround]
      · by_cases hc : c = ""
        · by_cases hs : s = ""
          · simp [search, hq, hd, hc, hs, eventAuthorizedExceptEmptyAround]
          · have ha : arch.has_stream_access u s = true := by
              rcases Bool.eq_false_or_eq_true
                  (arch.has_stream_access u s) with h | h
              · exact h
              · exact absurd ⟨hs, h⟩ hd
            simp [search, hq, hd, hc, hs, ha,
              eventAuthorizedExceptEmptyAround]
        · by_cases hs : s = ""
          · simp [search, hq, hd, hc, hs, eventAuthorizedExceptEmptyAround]
          · have ha : arch.has_stream_access u s = true := by
              rcases Bool.eq_false_or_eq_true
                  (arch.has_stream_access u s) with h | h
              · exact h
              · exact absurd ⟨hs, h⟩ hd
            simp [search, hq, hd, hc, hs, ha,
              eventAuthorizedExceptEmptyAround]
  · by_cases hs : s = ""
    · simp [browse, hs, eventAuthorizedExceptEmptyAround]
    · by_cases ha : arch.has_stream_access u s = false
      · simp [browse, hs, ha, eventAuthorizedExceptEmptyAround]
      · have ha2 : arch.has_stream_access u s = true := by
          rcases Bool.eq_false_or_eq_true
              (arch.has_stream_access u s) with h | h
          · exact h
          · exact absurd h ha
        simp [browse, hs, ha, ha2, eventAuthorizedExceptEmptyAround]
  · intro hq hs ha
    have hd : s ≠ "" ∧ arch.has_stream_access u s = false := ⟨hs, ha⟩
    constructor
    · simp [search, hq, hd]
    · simp [search, hq, hd, isArchiveRead]
  · intro hs ha
    constructor
    · simp [browse, hs, ha]
    · simp [browse, hs, ha, isArchiveRead]

/-- C2 witness: the amended theorem applied to a concrete denied request:
a named stream the user may not access yields the access-denied page. -/
theorem search_browse_reads_gated_witness :
    (search archNone userAlice "x" "st" "" 0).1 = Response.accessDenied ∧
    ∀ e ∈ (search archNone userAlice "x" "st" "" 0).2,
      isArchiveRead e = false :=
  (search_browse_reads_gated archNone userAlice "x" "st" "" 0 none).2.2.1
    (by decide) (by decide) (by decide)

/-- C9 (counterexample): an unauthenticated request that triggers the
production HTTPS redirect — which is registered before `_check_auth` — is
answered with the 301 redirect, not with the login-redirect page: here an
unauthenticated `/browse` request in production with `is_secure` set. -/
theorem unauth_request_answered_by_https_redirect :
    dispatch true [] ⟨false, "/browse", true, false⟩
        (fun _ => (Response.uploadForm, [])) =
      (Response.httpsRedirect, []) ∧
    Response.httpsRedirect ≠
      Response.redirectPage "/login" "Auth required" := by
  exact ⟨rfl, by decide⟩

/-- C9 (amended): for every request whose auth cookie does not identify a
known user, every path other than `/login` or an existing file of the
static folder is answered before the route handler runs — with the
login-redirect page, unless the production HTTPS redirect fires first —
so no archive read or write is performed for unauthenticated requests. -/
theorem unauth_requests_login_redirect (isProd : Bool)
    (staticFiles : List String) (r : RequestCtx)
    (handler : Unit → Response × List Event)
    (hk : r.knownUser = false) (hl : r.path ≠ "/login")
    (hs : staticFiles.contains (r.path.drop 1) = false) :
    (dispatch isProd staticFiles r handler).2 = [] ∧
    (∀ handler2, dispatch isProd staticFiles r handler =
      dispatch isProd staticFiles r handler2) ∧
    (¬ ((r.isSecure = true ∨ r.xfpHttp = true) ∧ isProd = true) →
      dispatch isProd staticFiles r handler =
        (Response.redirectPage "/login" "Auth required", [])) := by
  by_cases hhttps : (r.isSecure = true ∨ r.xfpHttp = true) ∧ isProd = true
  · refine ⟨?_, ?_, ?_⟩
    · simp [dispatch, redirect_to_https, hhttps]
    · intro handler2
      simp [dispatch, redirect_to_https, hhttps]
    · intro hcon
      exact absurd hhttps hcon
  · have hs2 : ¬ (r.path.drop 1 ∈ staticFiles) := by simpa using hs
    refine ⟨?_, ?_, ?_⟩
    · simp [dispatch, redirect_to_https, check_auth, hhttps, hk, hl, hs2]
    · intro handler2
      simp [dispatch, redirect_to_https, check_auth, hhttps, hk, hl, hs2]
    · intro _
      simp [dispatch, redirect_to_https, check_auth, hhttps, hk, hl, hs2]

/-- C9 witness: the amended theorem applied to a concrete unauthenticated
request outside production: the login-redirect page is returned with no
side effect. -/
theorem unauth_requests_login_redirect_witness :
    dispatch false [] ⟨false, "/browse", false, false⟩
        (fun _ => (Response.uploadForm, [])) =
      (Response.redirectPage "/login" "Auth required", []) :=
  (unauth_requests_login_redirect false []
      ⟨false, "/browse", false, false⟩ (fun _ => (Response.uploadForm, []))
      (by decide) (by decide) (by decide)).2.2 (by decide)

/-- C7: `streams_fetch(token)` is called exactly on the login path where
the OAuth exchange and `auth.test` succeeded and the team id matched; when
it is called, the credential upsert and the auth-cookie set precede it in
the trace, and on every error path it is never called. -/
theorem streams_fetch_only_after_login_success (teamEnvId : String)
    (oauth : OAuthResult) (api : AuthTestResult) :
    (∀ t, Event.callStreamsFetch t ∈ (login_oauth teamEnvId oauth api).2 →
      (∃ scope, oauth = OAuthResult.ok t scope) ∧
      (∃ team usr, api = AuthTestResult.ok teamEnvId team usr) ∧
      ∃ l1 l2, (login_oauth teamEnvId oauth api).2 =
          l1 ++ Event.callStreamsFetch t :: l2 ∧
        (∃ fa, Event.tokensUpsert t fa ∈ l1) ∧
        Event.setCookie "auth" ∈ l1) ∧
    (∀ token scope team usr, oauth = OAuthResult.ok token scope →
      api = AuthTestResult.ok teamEnvId team usr →
      Event.callStreamsFetch token ∈ (login_oauth teamEnvId oauth api).2) := by
  constructor
  · intro t ht
    rcases oauth with msg | ⟨token, scope⟩
    · simp [login_oauth] at ht
    · rcases api with msg | ⟨tid, team, usr⟩
      · simp [login_oauth, login_with_token] at ht
      · by_cases htid : tid = teamEnvId
        · subst htid
          simp [login_oauth, login_with_token, login_success] at ht
          subst ht
          refine ⟨⟨scope, rfl⟩, ⟨team, usr, rfl⟩, ?_⟩
          refine ⟨[Event.tokensUpsert t
              (!(scope.toList.count ',' == 1)),
            Event.zLoginsInsert usr, Event.setCookie "auth"], [], ?_, ?_, ?_⟩
          · simp [login_oauth, login_with_token, login_success]
          · exact ⟨!(scope.toList.count ',' == 1), by simp⟩
          · simp
        · simp [login_oauth, login_with_token, htid] at ht
  · intro token scope team usr ho ha
    subst ho
    subst ha
    simp [login_oauth, login_with_token, login_success]

/-- C7 witness: the theorem applied to a concrete successful login:
`streams_fetch` is invoked with the granted token. -/
theorem streams_fetch_only_after_login_success_witness :
    Event.callStreamsFetch "tok" ∈
      (login_oauth "T1" (OAuthResult.ok "tok" "identify")
        (AuthTestResult.ok "T1" "team" "bob")).2 :=
  (streams_fetch_only_after_login_success "T1"
      (OAuthResult.ok "tok" "identify")
      (AuthTestResult.ok "T1" "team" "bob")).2
    "tok" "identify" "team" "bob" rfl rfl

/-- C8: the stored credential scope flag derives solely from a comma
count: on a successful login the token-store upsert carries
`full_access = false` exactly when the granted scope string contains
exactly one comma, and `full_access = true` for any other comma count
(a single scope, or three or more scopes). -/
theorem full_access_iff_not_one_comma (teamEnvId token scope team usr :
    String) :
    (Event.tokensUpsert token (!(scope.toList.count ',' == 1)) ∈
      (login_oauth teamEnvId (OAuthResult.ok token scope)
        (AuthTestResult.ok teamEnvId team usr)).2) ∧
    (scope.toList.count ',' = 1 →
      Event.tokensUpsert token false ∈
        (login_oauth teamEnvId (OAuthResult.ok token scope)
          (AuthTestResult.ok teamEnvId team usr)).2) ∧
    (scope.toList.count ',' ≠ 1 →
      Event.tokensUpsert token true ∈
        (login_oauth teamEnvId (OAuthResult.ok token scope)
          (AuthTestResult.ok teamEnvId team usr)).2) ∧
    (∀ fa, Event.tokensUpsert token fa ∈
        (login_oauth teamEnvId (OAuthResult.ok token scope)
          (AuthTestResult.ok teamEnvId team usr)).2 →
      (fa = false ↔ scope.toList.count ',' = 1)) := by
  refine ⟨?_, ?_, ?_, ?_⟩
  · simp [login_oauth, login_with_token, login_success]
  · intro h1
    have h2 : (scope.toList.count ',' == 1) = true := by
      simpa using h1
    simp [login_oauth, login_with_token, login_success, h2]
    exact h1
  · intro h1
    have h2 : (scope.toList.count ',' == 1) = false := by
      simpa using h1
    simp [login_oauth, login_with_token, login_success, h2]
    exact h1
  · intro fa hfa
    simp [login_oauth, login_with_token, login_success] at hfa
    subst hfa
    constructor
    · intro hfalse
      have h2 : (scope.toList.count ',' == 1) = true := by
        simpa using hfalse
      simpa using h2
    · intro hcount
      simp [hcount]
      exact hcount

/-- C8 witness: the theorem applied to a concrete identify-only grant
(`"identify,files:read"`, one comma): the stored flag is
`full_access = false`. -/
theorem full_access_iff_not_one_comma_witness :
    Event.tokensUpsert "tok" false ∈
      (login_oauth "T1" (OAuthResult.ok "tok" "identify,files:read")
        (AuthTestResult.ok "T1" "team" "bob")).2 :=
  (full_access_iff_not_one_comma "T1" "tok" "identify,files:read"
      "team" "bob").2.1 (by decide)

/-- The `"all"` filter resolves to itself and partitions exactly the
visible streams by kind. -/
theorem filter_streams_m_all (u : ArchUser) (streams : List ArchStream) :
    filter_streams_m u streams "all" =
      ((streams.filter (fun s => visibleTo u s)).filter
          (fun s => s.kind = StreamKind.publicChannel),
       (streams.filter (fun s => visibleTo u s)).filter
          (fun s => s.kind = StreamKind.privateGroup),
       (streams.filter (fun s => visibleTo u s)).filter
          (fun s => s.kind = StreamKind.directMessage),
       "all") := rfl

/-- C3: under the spec's data model (stream ids are unique keys of the
store), `has_stream_access` answers true exactly when the stream id
appears in one of the three partitions returned by
`filter_streams(user, 'all')`. -/
theorem has_stream_access_iff_all_partition (u : ArchUser)
    (streams : List ArchStream) (sid : String)
    (hnd : (streams.map ArchStream.sid).Nodup) :
    has_stream_access_m u streams sid = true ↔
      sid ∈ partitionIds (filter_streams_m u streams "all") := by
  constructor
  · intro h
    unfold has_stream_access_m at h
    cases hf : streams.find? (fun s => s.sid = sid) with
    | none =>
        rw [hf] at h
        simp at h
    | some s =>
        rw [hf] at h
        have hs : s ∈ streams := List.mem_of_find?_eq_some hf
        have hsid : s.sid = sid := by simpa using List.find?_some hf
        simp only [partitionIds, filter_streams_m_all, List.mem_map,
          List.mem_append, List.mem_filter]
        refine ⟨s, ?_, hsid⟩
        cases hk : s.kind with
        | publicChannel => exact Or.inl (Or.inl ⟨⟨hs, h⟩, by simp⟩)
        | privateGroup => exact Or.inl (Or.inr ⟨⟨hs, h⟩, by simp⟩)
        | directMessage => exact Or.inr ⟨⟨hs, h⟩, by simp⟩
  · intro h
    simp only [partitionIds, filter_streams_m_all, List.mem_map,
      List.mem_append, List.mem_filter] at h
    obtain ⟨s, hsmem, hsid⟩ := h
    have hs : s ∈ streams ∧ visibleTo u s = true := by
      rcases hsmem with (⟨⟨a, b⟩, -⟩ | ⟨⟨a, b⟩, -⟩) | ⟨⟨a, b⟩, -⟩ <;>
        exact ⟨a, b⟩
    unfold has_stream_access_m
    cases hf : streams.find? (fun s => s.sid = sid) with
    | none =>
        rw [List.find?_eq_none] at hf
        have := hf s hs.1
        simp [hsid] at this
    | some x =>
        have hx : x ∈ streams := List.mem_of_find?_eq_some hf
        have hxid : x.sid = sid := by simpa using List.find?_some hf
        have hxs : x = s :=
          List.inj_on_of_nodup_map hnd hx hs.1 (by rw [hxid, hsid])
        rw [hxs]
        exact hs.2

/-- C3 witness: the invariant evaluated on a concrete store: a
full-access member sees the private group `g1` both through
`has_stream_access` and through the `"all"` partitions. -/
theorem has_stream_access_iff_all_partition_witness :
    has_stream_access_m ⟨"alice", true⟩ demoStreams "g1" = true ↔
      "g1" ∈ partitionIds
        (filter_streams_m ⟨"alice", true⟩ demoStreams "all") :=
  has_stream_access_iff_all_partition ⟨"alice", true⟩ demoStreams "g1"
    (by decide)

/-- Appending records to the collection never removes a key. -/
theorem hasKey_append (coll extra : List ArchMessage) (x : ArchMessage)
    (h : hasKey coll x = true) : hasKey (coll ++ extra) x = true := by
  simp only [hasKey, List.any_append, Bool.or_eq_true]
  exact Or.inl (by simpa [hasKey] using h)

/-- The import loop only grows the collection: any key present before
the loop is still present after it. -/
theorem importLoop_hasKey_mono (records : List ArchMessage) :
    ∀ (coll : List ArchMessage) (b : ImportBatch) (x : ArchMessage),
      hasKey coll x = true → hasKey (importLoop records coll b).1 x = true := by
  induction records with
  | nil => intro coll b x h; simpa [importLoop] using h
  | cons m rest ih =>
      intro coll b x h
      unfold importLoop
      by_cases hm : hasKey coll m = true
      · simp only [upsertMessage, hm, if_true, if_false]
        exact ih coll ⟨b.inserted, b.skipped + 1⟩ x h
      · have hm2 : hasKey coll m = false := by
          simpa using hm
        simp only [upsertMessage, hm2, Bool.false_eq_true, if_false, if_true]
        exact ih (coll ++ [m]) ⟨b.inserted + 1, b.skipped⟩ x
          (hasKey_append coll [m] x h)

/-- After an import run, every record of the archive has its key present
in the resulting collection. -/
theorem importLoop_hasKey (records : List ArchMessage) :
    ∀ (coll : List ArchMessage) (b : ImportBatch) (m : ArchMessage),
      m ∈ records → hasKey (importLoop records coll b).1 m = true := by
  induction records with
  | nil => intro coll b m hm; cases hm
  | cons a rest ih =>
      intro coll b m hm
      unfold importLoop
      rcases List.mem_cons.mp hm with rfl | hmem
      · by_cases ha : hasKey coll m = true
        · simp only [upsertMessage, ha, if_true, if_false]
          exact importLoop_hasKey_mono rest coll ⟨b.inserted, b.skipped + 1⟩
            m ha
        · have ha2 : hasKey coll m = false := by simpa using ha
          simp only [upsertMessage, ha2, Bool.false_eq_true, if_false,
            if_true]
          refine importLoop_hasKey_mono rest (coll ++ [m])
            ⟨b.inserted + 1, b.skipped⟩ m ?_
          simp [hasKey]
      · by_cases ha : hasKey coll a = true
        · simp only [upsertMessage, ha, if_true, if_false]
          exact ih coll ⟨b.inserted, b.skipped + 1⟩ m hmem
        · have ha2 : hasKey coll a = false := by simpa using ha
          simp only [upsertMessage, ha2, Bool.false_eq_true, if_false,
            if_true]
          exact ih (coll ++ [a]) ⟨b.inserted + 1, b.skipped⟩ m hmem

/-- An import run over records whose keys are all already present leaves
the collection unchanged, inserts nothing and skips every record. -/
theorem importLoop_all_present (records : List ArchMessage)
    (coll : List ArchMessage) :
    ∀ (b : ImportBatch), (∀ m ∈ records, hasKey coll m = true) →
      importLoop records coll b =
        (coll, ⟨b.inserted, b.skipped + records.length⟩) := by
  induction records with
  | nil => intro b _; simp [importLoop]
  | cons a rest ih =>
      intro b h
      have ha : hasKey coll a = true := h a (by simp)
      unfold importLoop
      simp only [upsertMessage, ha, if_true, if_false]
      have hrec := ih ⟨b.inserted, b.skipped + 1⟩
        (fun m hm => h m (by simp [hm]))
      rw [hrec]
      have harith : b.skipped + 1 + rest.length =
          b.skipped + (a :: rest).length := by
        simp [List.length_cons]
        omega
      rw [harith]
      simp

/-- C4: re-running an import with the same archive after a prior run
yields zero new insertions and leaves the canonical Messages collection
unchanged. -/
theorem import_idempotent (records coll : List ArchMessage) :
    (import_archive_m records
        (import_archive_m records coll).1).2.inserted = 0 ∧
    (import_archive_m records (import_archive_m records coll).1).1 =
      (import_archive_m records coll).1 := by
  have hall : ∀ m ∈ records,
      hasKey (import_archive_m records coll).1 m = true :=
    fun m hm => importLoop_hasKey records coll ⟨0, 0⟩ m hm
  have h2 := importLoop_all_present records
    (import_archive_m records coll).1 ⟨0, 0⟩ hall
  constructor
  · show (importLoop records
        (import_archive_m records coll).1 ⟨0, 0⟩).2.inserted = 0
    rw [h2]
  · show (importLoop records
        (import_archive_m records coll).1 ⟨0, 0⟩).1 = _
    rw [h2]

end Slag
